import Mathlib

/-!
Verification development for the F1_Insights core: the Monte Carlo race-strategy
simulator (`simulation/strategy.py`), the driver comparison / binning pipeline
(`analysis/driver_compare.py`), the tire/fuel pace model (`analysis/tire_model.py`),
the telemetry normalization (`data/normalization.py`) and the row validation
(`data/schemas.py`).

Python floats are embedded as rationals (ℚ); pandas DataFrames are embedded as
lists of named columns or lists of typed rows, as fits each module; fallible
calls return `Except String`, the message recording which Python exception the
source would raise.
-/

namespace Strategy

/-- Rounding of `q` to the nearest integer, ties to even, as numpy rounding does. -/
def round_half_even (q : ℚ) : ℤ :=
  let f := ⌊q⌋
  let r := q - f
  if r < 1/2 then f
  else if 1/2 < r then f + 1
  else if 2 ∣ f then f else f + 1

/-- Rounding to 3 decimal places, as `Series.round(3)` does on the race times. -/
def round3 (q : ℚ) : ℚ := (round_half_even (q * 1000) : ℚ) / 1000

/-- One step of the modelled pseudo-random generator state.  The concrete update
rule stands in for numpy's PCG64 state advance; every theorem below depends only
on the state being advanced deterministically, never on the emitted values. -/
def lcg_next (s : ℕ) : ℕ := (s * 1103515245 + 12345) % 2147483648

/-- Modelled draw `rng.normal(0, std)`: consumes one generator state step and
scales the emitted value by `std`, so that a zero standard deviation yields
exactly zero, as `Generator.normal(0, 0)` does. -/
def normal_draw (std : ℚ) (rng : ℕ) : ℚ × ℕ :=
  let s := lcg_next rng
  (std * ((s : ℚ) / 2147483648 - 1/2), s)

/-- Loop state of one simulated run: cumulative time, tire age, generator state. -/
structure SimState where
  total : ℚ
  tire_age : ℕ
  rng : ℕ
deriving DecidableEq, Repr

/-- Body of `for lap in range(1, laps + 1)` in `run_monte_carlo_strategy`:
on the pit lap the pit loss is added and the tire age reset before the lap
time; the lap time is base pace plus degradation times tire age plus noise. -/
def lap_step (base deg pit_loss std : ℚ) (pit_lap : ℕ) (st : SimState) (lap : ℕ) : SimState :=
  let st' := if lap = pit_lap then { st with total := st.total + pit_loss, tire_age := 0 } else st
  let d := normal_draw std st'.rng
  { total := st'.total + (base + deg * (st'.tire_age : ℚ) + d.1)
  , tire_age := st'.tire_age + 1
  , rng := d.2 }

/-- One simulated run: laps `1 .. laps`, starting from zero time and fresh tires;
returns the cumulative race time together with the advanced generator state. -/
def sim_run (base : ℚ) (laps pit_lap : ℕ) (pit_loss deg std : ℚ) (rng : ℕ) : ℚ × ℕ :=
  let f := (List.range' 1 laps).foldl (lap_step base deg pit_loss std pit_lap) ⟨0, 0, rng⟩
  (f.total, f.rng)

/-- Seed of the generator created inside every call: `np.random.default_rng(42)`. -/
def fixed_seed : ℕ := 42

/-- Body of `for run_id in range(n_runs)`: simulate one run with the shared
generator state and append its row `(run_id, race_time_s)` to the collected rows. -/
def mc_step (base_lap_s : ℚ) (laps pit_lap : ℕ) (pit_loss_s deg_per_lap_s noise_std_s : ℚ)
    (acc : List (ℕ × ℚ) × ℕ) (run_id : ℕ) : List (ℕ × ℚ) × ℕ :=
  let r := sim_run base_lap_s laps pit_lap pit_loss_s deg_per_lap_s noise_std_s acc.2
  (acc.1 ++ [(run_id, r.1)], r.2)

/-- Embedding of `run_monte_carlo_strategy`: a generator freshly seeded with the
fixed seed is shared by all runs of one call; one row `(run_id, race_time_s)` per
run; the final frame rounds `race_time_s` to 3 decimals.  With zero runs the row
list is empty, the frame has no `race_time_s` column, and the column access
raises, embedded as the `KeyError` branch. -/
def run_monte_carlo_strategy (n_runs : ℕ) (base_lap_s : ℚ) (laps pit_lap : ℕ)
    (pit_loss_s deg_per_lap_s noise_std_s : ℚ) : Except String (List (ℕ × ℚ)) :=
  let rows := ((List.range n_runs).foldl
    (mc_step base_lap_s laps pit_lap pit_loss_s deg_per_lap_s noise_std_s) ([], fixed_seed)).1
  if rows.isEmpty then Except.error ("KeyError: race_time_s")
  else Except.ok (rows.map (fun p => (p.1, round3 p.2)))

/-- Abbreviation for the degradation sum `0 + 1 + ... + (n-1) = n * (n-1) / 2`
accumulated by a stint of `n` laps starting on fresh tires. -/
def stint_deg_sum (n : ℕ) : ℚ := (n : ℚ) * ((n : ℚ) - 1) / 2

/-- Two sequential calls with identical arguments in one process.  Each call
constructs its own generator from the fixed seed, exactly as the source calls
`np.random.default_rng(42)` in the function body, so no generator state flows
from the first call into the second. -/
def run_twice (n_runs : ℕ) (base_lap_s : ℚ) (laps pit_lap : ℕ)
    (pit_loss_s deg_per_lap_s noise_std_s : ℚ) :
    Except String (List (ℕ × ℚ)) × Except String (List (ℕ × ℚ)) :=
  (run_monte_carlo_strategy n_runs base_lap_s laps pit_lap pit_loss_s deg_per_lap_s noise_std_s,
   run_monte_carlo_strategy n_runs base_lap_s laps pit_lap pit_loss_s deg_per_lap_s noise_std_s)

end Strategy

namespace DriverCompare

/-- One row of a normalized user-telemetry table as `compare_two_drivers`
consumes it: every field is nullable, since normalization coerces bad values to
null and fills absent columns with nulls. -/
structure TelemetryRow where
  driver_code : Option String
  lap_number : Option ℚ
  lap_distance_m : Option ℚ
  speed_kph : Option ℚ
  throttle_pct : Option ℚ
  brake_pct : Option ℚ
deriving DecidableEq, Repr

/-- Bin index column `(lap_distance_m // bin_size_m).astype(Int64)`: floor
division of the distance, kept null when the distance is null. -/
def bin_of (bin_size_m : ℚ) (r : TelemetryRow) : Option ℤ :=
  r.lap_distance_m.map (fun d => ⌊d / bin_size_m⌋)

/-- Group key `(driver_code, lap_number, bin_index)`; `groupby(..., dropna=True)`
keeps a row only when all three keys are non-null. -/
def key_of (bin_size_m : ℚ) (r : TelemetryRow) : Option (String × ℚ × ℤ) :=
  match r.driver_code, r.lap_number, bin_of bin_size_m r with
  | some d, some l, some b => some (d, l, b)
  | _, _, _ => none

/-- Mean aggregation of a nullable column: pandas skips nulls and yields null
when no value remains. -/
def meanOpt (xs : List (Option ℚ)) : Option ℚ :=
  let vs := xs.filterMap id
  if vs.isEmpty then none else some (vs.sum / vs.length)

/-- One row of the binned output of `telemetry_bin_average`. -/
structure BinnedRow where
  driver_code : String
  lap_number : ℚ
  bin_index : ℤ
  speed_kph : Option ℚ
  throttle_pct : Option ℚ
  brake_pct : Option ℚ
deriving DecidableEq, Repr

/-- Embedding of `telemetry_bin_average`: one row per distinct non-null group
key carrying the within-group means of speed, throttle and brake.  The key order
of the pandas groupby (sorted keys) is not modelled; the claims proved below are
membership statements that do not depend on row order. -/
def telemetry_bin_average (df : List TelemetryRow) (bin_size_m : ℚ := 50) : List BinnedRow :=
  let keys := (df.filterMap (key_of bin_size_m)).dedup
  keys.map (fun k =>
    let grp := df.filter (fun r => decide (key_of bin_size_m r = some k))
    ⟨k.1, k.2.1, k.2.2,
     meanOpt (grp.map (fun r => r.speed_kph)),
     meanOpt (grp.map (fun r => r.throttle_pct)),
     meanOpt (grp.map (fun r => r.brake_pct))⟩)

/-- One row of the merged output of `compare_two_drivers`: driver A's renamed
metric columns, driver B's, the `_x`/`_y` suffixed `driver_code` columns the
merge keeps, and the appended delta column. -/
structure CompareRow where
  driver_code_x : String
  lap_number : ℚ
  bin_index : ℤ
  speed_a : Option ℚ
  throttle_a : Option ℚ
  brake_a : Option ℚ
  driver_code_y : String
  speed_b : Option ℚ
  throttle_b : Option ℚ
  brake_b : Option ℚ
  speed_delta_kph : Option ℚ
deriving DecidableEq, Repr

/-- Null-propagating subtraction of two nullable columns, as `speed_a - speed_b`
behaves on NaN entries. -/
def osub (x y : Option ℚ) : Option ℚ :=
  match x, y with
  | some a, some b => some (a - b)
  | _, _ => none

/-- Embedding of `compare_two_drivers`: bin the full table once, split into the
two single-driver views, inner-join them on `(lap_number, bin_index)` and append
`speed_delta_kph = speed_a - speed_b`. -/
def compare_two_drivers (df : List TelemetryRow) (driver_a driver_b : String) :
    List CompareRow :=
  let binned := telemetry_bin_average df 50
  let a := binned.filter (fun r => decide (r.driver_code = driver_a))
  let b := binned.filter (fun r => decide (r.driver_code = driver_b))
  a.bind (fun ra =>
    (b.filter (fun rb => decide (rb.lap_number = ra.lap_number ∧ rb.bin_index = ra.bin_index))).map
      (fun rb => ⟨ra.driver_code, ra.lap_number, ra.bin_index,
                  ra.speed_kph, ra.throttle_pct, ra.brake_pct,
                  rb.driver_code, rb.speed_kph, rb.throttle_pct, rb.brake_pct,
                  osub ra.speed_kph rb.speed_kph⟩))

end DriverCompare

namespace TireModel

/-- A lap table as `fuel_corrected_pace` consumes it: named columns of nullable
numeric cells (every column the function touches holds numbers in the
normalized lap schema).  Duplicate column labels are not modelled here; column
access takes the first match. -/
abbrev NumDF : Type := List (String × List (Option ℚ))

/-- Membership test `col in df.columns`. -/
def hasCol (df : NumDF) (n : String) : Bool := df.any (fun c => c.1 = n)

/-- Column access `df[col]`, first match. -/
def getCol (df : NumDF) (n : String) : Option (List (Option ℚ)) :=
  (List.find? (fun c => c.1 = n) df).map (fun c => c.2)

/-- Row count `len(df)`. -/
def nRows (df : NumDF) : ℕ :=
  match df with
  | [] => 0
  | c :: _ => c.2.length

/-- Column assignment `df[col] = vals`: overwrite in place when the label
exists, append at the end otherwise. -/
def setCol (df : NumDF) (n : String) (vals : List (Option ℚ)) : NumDF :=
  if hasCol df n then List.map (fun c => if c.1 = n then (n, vals) else c) df
  else df ++ [(n, vals)]

def DEFAULT_FUEL_PENALTY_S_PER_KG : ℚ := 3/100

def DEFAULT_START_FUEL_KG : ℚ := 100

/-- Python `int(...)`: truncation toward zero. -/
def int_trunc (q : ℚ) : ℤ := if 0 ≤ q then ⌊q⌋ else ⌈q⌉

/-- Embedding of `estimate_fuel_mass`: linear burn from the fixed starting mass
down over `max(total_laps, 1)` laps, elementwise floored at zero. -/
def estimate_fuel_mass (lap_number : List ℚ) (total_laps : ℤ) : List ℚ :=
  let burned_per_lap := DEFAULT_START_FUEL_KG / ((max total_laps 1 : ℤ) : ℚ)
  lap_number.map (fun n => max (DEFAULT_START_FUEL_KG - burned_per_lap * n) 0)

/-- Trailing rolling mean, window 5, at index `i`: mean of the non-null entries
of the last five positions when at least two remain, else null. -/
def rolling_mean_at (xs : List (Option ℚ)) (i : ℕ) : Option ℚ :=
  let window := (xs.take (i + 1)).drop (i + 1 - 5)
  let vs := window.filterMap id
  if 2 ≤ vs.length then some (vs.sum / (vs.length : ℚ)) else none

/-- The `rolling(window=5, min_periods=2).mean()` column. -/
def rolling_mean_5_2 (xs : List (Option ℚ)) : List (Option ℚ) :=
  (List.range xs.length).map (rolling_mean_at xs)

/-- Message of the `ValueError` raised for a missing lap-time column. -/
def missing_col_msg (c : String) : String := "Missing required column: " ++ c

/-- Success tail of `fuel_corrected_pace` once the `lap_number` column has been
selected: fill its nulls with 1, estimate fuel mass, and append the fuel mass,
fuel effect, fuel-corrected lap time and rolling degradation trend columns. -/
def append_pace_columns (laps_df : NumDF) (lap_time_col : String) (total_laps : ℤ)
    (lap_col : List (Option ℚ)) : NumDF :=
  let lap_filled := lap_col.map (fun c => c.getD 1)
  let fuel_mass := estimate_fuel_mass lap_filled total_laps
  let df1 := setCol laps_df "fuel_mass_kg" (fuel_mass.map some)
  let fuel_effect := fuel_mass.map (fun m => m * DEFAULT_FUEL_PENALTY_S_PER_KG)
  let df2 := setCol df1 "fuel_effect_s" (fuel_effect.map some)
  let lap_times := (getCol laps_df lap_time_col).getD []
  let corrected := List.zipWith (fun lt fe => lt.map (fun t => t - fe)) lap_times fuel_effect
  let df3 := setCol df2 "fuel_corrected_lap_s" corrected
  setCol df3 "degradation_trend_s" (rolling_mean_5_2 corrected)

/-- Embedding of `fuel_corrected_pace`, following the source line by line:
check the lap-time column; infer `total_laps` from the max observed
`lap_number` (raising on an all-null column via `int(nan)`) or the row count
when the column is absent; then access `df["lap_number"]` unconditionally —
a `KeyError` when the column is absent — fill nulls with 1, and append the
fuel mass, fuel effect, corrected lap time and rolling degradation trend
columns.  `pd.to_numeric` on the already numeric lap-time column is the
identity here. -/
def fuel_corrected_pace (laps_df : NumDF) (lap_time_col : String := "lap_duration_s") :
    Except String NumDF :=
  if ¬ hasCol laps_df lap_time_col then Except.error (missing_col_msg lap_time_col)
  else
    let total_laps? : Except String ℤ :=
      if hasCol laps_df "lap_number" then
        match (((getCol laps_df "lap_number").getD []).filterMap id).max? with
        | some m => Except.ok (int_trunc m)
        | none => Except.error ("ValueError: cannot convert float NaN to integer")
      else Except.ok (nRows laps_df : ℤ)
    match total_laps? with
    | Except.error e => Except.error e
    | Except.ok total_laps =>
      match getCol laps_df "lap_number" with
      | none => Except.error ("KeyError: lap_number")
      | some lap_col => Except.ok (append_pace_columns laps_df lap_time_col total_laps lap_col)

/-- Lap table with a lap-time column but no `lap_number` column (C7's failing
input). -/
def c7_df : NumDF := [("lap_duration_s", [some 90])]

/-- Another lap table with a lap-time column but no `lap_number` column (C6's
counterexample input). -/
def c6_bad_df : NumDF := [("lap_duration_s", [some 100, some 101])]

/-- Well-formed lap table: lap times and lap numbers both present. -/
def c6_good_df : NumDF :=
  [("lap_duration_s", [some 90, some 91]), ("lap_number", [some 1, some 2])]

end TireModel

namespace DriverCompare

/-- Sample telemetry table: two drivers, one lap, both samples in bin 0. -/
def sample_df : List TelemetryRow :=
  [⟨some ("HAM"), some 1, some 10, some 100, some 50, some 0⟩,
   ⟨some ("VER"), some 1, some 20, some 96, some 40, some 0⟩]

/-- The single merged row `compare_two_drivers sample_df "HAM" "VER"` produces. -/
def sample_row : CompareRow :=
  ⟨"HAM", 1, 0, some 100, some 50, some 0, "VER", some 96, some 40, some 0, some 4⟩

end DriverCompare

/-- One value of a raw pandas table cell: a string, a number, or a null
(`None`/`NaN`). -/
inductive Cell where
  | str (s : String)
  | num (q : ℚ)
  | null
deriving DecidableEq, Repr

namespace Normalization

/-- A raw or normalized table: named columns of cells, in column order.
Duplicate labels can arise (that is what the rename-collision claims are
about) and are kept, exactly as pandas keeps them. -/
abbrev DF : Type := List (String × List Cell)

/-- Column labels, in order. -/
def colNames (df : DF) : List String := df.map (fun c => c.1)

/-- Row count of the table (length of the first column). -/
def nRows (df : DF) : ℕ :=
  match df with
  | [] => 0
  | c :: _ => c.2.length

/-- Membership test `col in df.columns`. -/
def hasCol (df : DF) (n : String) : Bool := df.any (fun c => c.1 = n)

/-- How many columns carry the label `n`. -/
def countCol (df : DF) (n : String) : ℕ := df.countP (fun c => decide (c.1 = n))

/-- First column with label `n`. -/
def getCol (df : DF) (n : String) : Option (List Cell) :=
  (List.find? (fun c => c.1 = n) df).map (fun c => c.2)

/-- Rewrite the values of every column labelled `n` through `g`. -/
def mapCol (df : DF) (n : String) (g : List Cell → List Cell) : DF :=
  List.map (fun c => if c.1 = n then (n, g c.2) else c) df

/-- Column assignment `df[col] = vals`: overwrite the columns carrying the
label in place when present, append at the end otherwise. -/
def setCol (df : DF) (n : String) (vals : List Cell) : DF :=
  if hasCol df n then mapCol df n (fun _ => vals) else df ++ [(n, vals)]

/-- Digit-string parser: `some` of the value of a non-empty all-digit list. -/
def parseDigits (cs : List Char) : Option ℕ :=
  if cs.isEmpty then none
  else cs.foldl (fun acc c =>
    match acc with
    | none => none
    | some a => if c.isDigit then some (a * 10 + (c.toNat - 48)) else none) (some 0)

/-- Decimal-literal parser standing in for the float parsing of
`pd.to_numeric`: optional sign, integer part, optional fractional part. -/
def parseNum (s : String) : Option ℚ :=
  let t := s.trim
  let su :=
    if t.startsWith ("-") then (true, t.drop 1)
    else if t.startsWith ("+") then (false, t.drop 1)
    else (false, t)
  let mag : Option ℚ :=
    match (su.2).splitOn (".") with
    | [a] => (parseDigits a.toList).map (fun n => (n : ℚ))
    | [a, b] =>
      if a.isEmpty && b.isEmpty then none
      else
        match parseDigits (if a.isEmpty then ['0'] else a.toList),
              parseDigits (if b.isEmpty then ['0'] else b.toList) with
        | some i, some f => some ((i : ℚ) + (f : ℚ) / ((10 : ℚ) ^ b.length))
        | _, _ => none
    | _ => none
  mag.map (fun q => if su.1 then -q else q)

/-- Numeric coercion of one cell, `errors="coerce"`: numbers pass through,
parseable strings parse, everything else becomes null. -/
def toNumCell : Cell → Option ℚ
  | Cell.num q => some q
  | Cell.null => none
  | Cell.str s => parseNum s

/-- One cell after `pd.to_numeric(..., errors="coerce")`. -/
def coerceCell (c : Cell) : Cell :=
  match toNumCell c with
  | some q => Cell.num q
  | none => Cell.null

/-- The `USER_SYNONYMS` table of the source. -/
def USER_SYNONYMS : List (String × String) :=
  [("distance", "lap_distance_m"), ("lap_distance", "lap_distance_m"),
   ("speed", "speed_kph"), ("throttle", "throttle_pct"), ("brake", "brake_pct"),
   ("driver", "driver_code"), ("lap", "lap_number")]

/-- The canonical user-schema column list, in canonical order. -/
def USER_SCHEMA_COLUMNS : List String :=
  ["source_type", "session_id", "driver_code", "lap_number", "lap_distance_m",
   "speed_kph", "throttle_pct", "brake_pct", "gear", "rpm", "timestamp_utc"]

/-- The declared numeric canonical columns, in the order the source coerces
them. -/
def USER_NUMERIC_COLS : List String :=
  ["lap_number", "lap_distance_m", "speed_kph", "throttle_pct", "brake_pct", "gear", "rpm"]

/-- Python `col.strip().lower()`. -/
def strip_lower (s : String) : String := s.trim.toLower

/-- Embedding of `_rename_with_synonyms`: every column whose trimmed,
lowercased name matches a synonym key is renamed to the canonical target;
two raw columns with the same target both get renamed, so duplicate labels
can appear. -/
def rename_with_synonyms (df : DF) (mapping : List (String × String)) : DF :=
  df.map (fun c =>
    match (List.find? (fun p => p.1 = strip_lower c.1) mapping).map (fun p => p.2) with
    | some canon => (canon, c.2)
    | none => c)

/-- The `for required in ...: if required not in df.columns: df[required] = None`
loop: append a null column for every canonical name still missing. -/
def fill_missing (df : DF) (cols : List String) (nr : ℕ) : DF :=
  match cols with
  | [] => df
  | c :: rest =>
    fill_missing (if hasCol df c then df else df ++ [(c, List.replicate nr Cell.null)]) rest nr

/-- One numeric coercion `df[col] = pd.to_numeric(df[col], errors="coerce")`:
with a unique label the column is coerced in place; with no label a `KeyError`
is raised; with a duplicated label `df[col]` is a two-column frame and
`pd.to_numeric` raises a `TypeError`. -/
def to_numeric_col (df : DF) (n : String) : Except String DF :=
  match countCol df n with
  | 0 => Except.error ("KeyError: " ++ n)
  | 1 => Except.ok (mapCol df n (List.map coerceCell))
  | _ => Except.error ("TypeError: arg must be a list, tuple, 1-d array, or Series")

/-- The `for col in numeric_cols` coercion loop. -/
def coerce_numeric_all (df : DF) : List String → Except String DF
  | [] => Except.ok df
  | c :: rest =>
    match to_numeric_col df c with
    | Except.ok d => coerce_numeric_all d rest
    | Except.error e => Except.error e

/-- Final selection `df[USER_SCHEMA_COLUMNS]`: every column carrying each
requested label, in requested label order. -/
def select_cols (df : DF) (cols : List String) : DF :=
  cols.bind (fun n => df.filter (fun c => decide (c.1 = n)))

/-- First lines of `normalize_user_telemetry`: rename by synonyms, then stamp
the `source_type` and `session_id` columns onto every row. -/
def stamped (df0 : DF) (session_id : String) : DF :=
  let d1 := rename_with_synonyms df0 USER_SYNONYMS
  let d2 := setCol d1 ("source_type") (List.replicate (nRows d1) (Cell.str ("user_upload")))
  setCol d2 ("session_id") (List.replicate (nRows d2) (Cell.str session_id))

/-- The stamped table with every still-missing canonical column filled with
nulls (the `for required in USER_SCHEMA_COLUMNS` loop). -/
def prepared (df0 : DF) (session_id : String) : DF :=
  fill_missing (stamped df0 session_id) USER_SCHEMA_COLUMNS (nRows (stamped df0 session_id))

/-- Final step `return df[USER_SCHEMA_COLUMNS]`, propagating an exception from
the coercion loop. -/
def restrict_result (r : Except String DF) : Except String DF :=
  match r with
  | Except.error e => Except.error e
  | Except.ok d5 => Except.ok (select_cols d5 USER_SCHEMA_COLUMNS)

/-- Embedding of `normalize_user_telemetry`: rename by synonyms, stamp
`source_type` and `session_id`, fill the missing canonical columns with nulls,
coerce the declared numeric columns (raising on duplicated labels), and
restrict to the canonical column list. -/
def normalize_user_telemetry (df0 : DF) (session_id : String) : Except String DF :=
  restrict_result (coerce_numeric_all (prepared df0 session_id) USER_NUMERIC_COLS)

/-- Raw table whose columns "Lap" and "lap " both rename to `lap_number`
(C8's counterexample input). -/
def c8_df : DF := [("Lap", [Cell.num 1]), ("lap ", [Cell.num 2])]

/-- Raw table whose columns "Lap" and "LAP" both rename to `lap_number`
(C4's counterexample input). -/
def c4_bad_df : DF := [("Lap", [Cell.str ("1")]), ("LAP", [Cell.num 2])]

/-- Raw table with a "Lap" column, no `lap_number` column, and an orphan
column (the Lap example scenario of C4). -/
def c4_raw_df : DF :=
  [("Lap", [Cell.str ("1"), Cell.str ("x"), Cell.null]),
   ("foo", [Cell.num 7, Cell.num 8, Cell.num 9])]

end Normalization

namespace Schemas

/-- One row mapping as produced by `df.to_dict(orient="records")`: field name
to cell; an absent field is simply missing from the list. -/
abbrev Row : Type := List (String × Cell)

/-- Value bound to a field name, `none` when the field is absent. -/
def getVal (r : Row) (k : String) : Option Cell :=
  (List.find? (fun p => p.1 = k) r).map (fun p => p.2)

/-- Pydantic acceptance of a `str` field value: any string, empty or not
(`driver_code: str` carries no min_length constraint); numbers and null are
rejected. -/
def okStr : Cell → Bool
  | Cell.str _ => true
  | _ => false

/-- Pydantic acceptance of a `float` field value: numbers, or strings that
parse as numbers. -/
def okFloat : Cell → Bool
  | Cell.num _ => true
  | Cell.str s => (Normalization.parseNum s).isSome
  | Cell.null => false

/-- Pydantic acceptance of an `int` field value: whole numbers, or strings
parsing to whole numbers. -/
def okInt : Cell → Bool
  | Cell.num q => q.den = 1
  | Cell.str s =>
    match Normalization.parseNum s with
    | some q => q.den = 1
    | none => false
  | Cell.null => false

/-- Pydantic acceptance of a `DataSourceType` value: one of the two declared
enum strings. -/
def okEnum : Cell → Bool
  | Cell.str s => s = "user_upload" || s = "open_historical"
  | _ => false

/-- Check of one required field: absent is a violation, present must satisfy
the type predicate. -/
def reqCheck (r : Row) (k : String) (ok : Cell → Bool) (msg : String) : Option String :=
  match getVal r k with
  | none => some ("Field required")
  | some c => if ok c then none else some msg

/-- Check of one optional (`T | None = None`) field: absent and null pass,
anything else must satisfy the type predicate. -/
def optCheck (r : Row) (k : String) (ok : Cell → Bool) (msg : String) : Option String :=
  match getVal r k with
  | none => none
  | some c => if c = Cell.null then none else if ok c then none else some msg

/-- Check of the defaulted `source_type` field: absent falls back to the
default, present must be a declared enum value. -/
def defCheck (r : Row) (k : String) (ok : Cell → Bool) (msg : String) : Option String :=
  match getVal r k with
  | none => none
  | some c => if ok c then none else some msg

def str_msg : String := "Input should be a valid string"

def int_msg : String := "Input should be a valid integer"

def num_msg : String := "Input should be a valid number"

def enum_msg : String := "Input should be a declared data source type"

/-- First violation of a row against `TelemetryRecord`, fields checked in
declaration order, as `err.errors()[0]["msg"]` reports it; `none` when the
row validates.  The message strings stand in for pydantic's wording. -/
def firstViolation_telemetry (r : Row) : Option String :=
  defCheck r ("source_type") okEnum enum_msg <|>
  reqCheck r ("session_id") okStr str_msg <|>
  reqCheck r ("driver_code") okStr str_msg <|>
  reqCheck r ("lap_number") okInt int_msg <|>
  reqCheck r ("lap_distance_m") okFloat num_msg <|>
  reqCheck r ("speed_kph") okFloat num_msg <|>
  reqCheck r ("throttle_pct") okFloat num_msg <|>
  reqCheck r ("brake_pct") okFloat num_msg <|>
  optCheck r ("gear") okInt int_msg <|>
  optCheck r ("rpm") okFloat num_msg <|>
  optCheck r ("timestamp_utc") okStr str_msg

/-- The `SchemaValidationResult` of the source. -/
structure SchemaValidationResult where
  valid_rows : ℕ
  invalid_rows : ℕ
  errors : List String
deriving DecidableEq, Repr

/-- Loop body of `_validate_rows` at one indexed row: bump the matching
counter and record `row=<idx>: <first message>` on failure. -/
def validate_step (check : Row → Option String) (acc : ℕ × ℕ × List String)
    (ir : ℕ × Row) : ℕ × ℕ × List String :=
  match check ir.2 with
  | none => (acc.1 + 1, acc.2.1, acc.2.2)
  | some m => (acc.1, acc.2.1 + 1, acc.2.2 ++ [("row=" ++ toString ir.1 ++ ": ") ++ m])

/-- Embedding of `_validate_rows`: validate each row independently with its
index, count valid and invalid rows, collect the capped (`[:25]`) diagnostic
list; the source's per-row `try/except` is the totality of `check` here
(validation never raises). -/
def validate_rows (check : Row → Option String) (records : List Row) :
    SchemaValidationResult :=
  let f := records.enum.foldl (validate_step check) (0, 0, [])
  ⟨f.1, f.2.1, (f.2.2).take 25⟩

/-- Embedding of `validate_user_telemetry` on the row list of the frame. -/
def validate_user_telemetry (records : List Row) : SchemaValidationResult :=
  validate_rows firstViolation_telemetry records

/-- Spec-side requirement on one required field: present and coercible. -/
def reqOk (r : Row) (k : String) (ok : Cell → Bool) : Prop :=
  ∃ c, getVal r k = some c ∧ ok c = true

/-- Spec-side allowance on one optional field: absent, null, or coercible. -/
def optOk (r : Row) (k : String) (ok : Cell → Bool) : Prop :=
  ∀ c, getVal r k = some c → c = Cell.null ∨ ok c = true

/-- Spec-side allowance on the defaulted enum field: absent or declared. -/
def defOk (r : Row) (k : String) (ok : Cell → Bool) : Prop :=
  ∀ c, getVal r k = some c → ok c = true

/-- Modelled from the spec (amended C5): a row is valid iff all required
fields are present and coercible to their declared semantic type — strings
accepted whether empty or not, numerics parse, integers are whole numbers,
enum values restricted to declared values — while optional fields may be
absent or null. -/
def specValidTelemetryRow (r : Row) : Prop :=
  defOk r ("source_type") okEnum ∧
  reqOk r ("session_id") okStr ∧
  reqOk r ("driver_code") okStr ∧
  reqOk r ("lap_number") okInt ∧
  reqOk r ("lap_distance_m") okFloat ∧
  reqOk r ("speed_kph") okFloat ∧
  reqOk r ("throttle_pct") okFloat ∧
  reqOk r ("brake_pct") okFloat ∧
  optOk r ("gear") okInt ∧
  optOk r ("rpm") okFloat ∧
  optOk r ("timestamp_utc") okStr

/-- Row whose `driver_code` is the empty string and whose other required
fields are well-formed (C5's counterexample input). -/
def empty_driver_row : Row :=
  [("source_type", Cell.str ("user_upload")), ("session_id", Cell.str ("s1")),
   ("driver_code", Cell.str ("")), ("lap_number", Cell.num 3),
   ("lap_distance_m", Cell.num 12), ("speed_kph", Cell.num 200),
   ("throttle_pct", Cell.num 95), ("brake_pct", Cell.num 0)]

/-- Fully well-formed row (C5's witness input). -/
def good_row : Row :=
  [("source_type", Cell.str ("user_upload")), ("session_id", Cell.str ("s2")),
   ("driver_code", Cell.str ("HAM")), ("lap_number", Cell.num 4),
   ("lap_distance_m", Cell.num 100), ("speed_kph", Cell.num 250),
   ("throttle_pct", Cell.num 100), ("brake_pct", Cell.num 0),
   ("gear", Cell.num 7), ("rpm", Cell.num 11000), ("timestamp_utc", Cell.str ("t"))]

end Schemas

namespace Strategy

theorem normal_draw_zero (rng : ℕ) : normal_draw 0 rng = (0, lcg_next rng) := by
  simp [normal_draw]

theorem stint_deg_sum_succ (n : ℕ) : stint_deg_sum (n + 1) = stint_deg_sum n + n := by
  unfold stint_deg_sum
  push_cast
  ring

/-- Closed form of a pit-free stretch of laps under zero noise: each lap adds the
base time plus degradation times the current tire age, and the tire age grows by
one per lap. -/
theorem foldl_no_pit (base deg pit_loss : ℚ) (pit_lap : ℕ) :
    ∀ (cnt start : ℕ) (st : SimState), (∀ l ∈ List.range' start cnt, l ≠ pit_lap) →
    (List.range' start cnt).foldl (lap_step base deg pit_loss 0 pit_lap) st =
      ⟨st.total + cnt * base + deg * (cnt * st.tire_age + stint_deg_sum cnt),
       st.tire_age + cnt, lcg_next^[cnt] st.rng⟩ := by
  intro cnt
  induction cnt with
  | zero =>
    intro start st _
    cases st with
    | mk t a r => simp [stint_deg_sum]
  | succ n ih =>
    intro start st h
    have hne : start ≠ pit_lap := h start (by simp [List.range'_succ])
    have h' : ∀ l ∈ List.range' (start + 1) n, l ≠ pit_lap := by
      intro l hl
      exact h l (by rw [List.range'_succ]; exact List.mem_cons_of_mem _ hl)
    rw [List.range'_succ, List.foldl_cons, ih (start + 1) _ h']
    cases st with
    | mk t a r =>
      simp only [lap_step, if_neg hne, normal_draw_zero, SimState.mk.injEq]
      refine ⟨?_, by omega, by rw [Function.iterate_succ_apply]⟩
      rw [stint_deg_sum_succ]
      push_cast
      ring

/-- Closed form of one whole run under zero noise when the pit lap lies inside
the race: the race time is the base pace for every lap, plus the pit loss, plus
degradation for the two stints either side of the stop. -/
theorem sim_run_zero_noise (base : ℚ) (laps pit_lap : ℕ) (pit_loss deg : ℚ) (rng : ℕ)
    (h1 : 1 ≤ pit_lap) (h2 : pit_lap ≤ laps) :
    (sim_run base laps pit_lap pit_loss deg 0 rng).1 =
      (laps : ℚ) * base + pit_loss +
        deg * (((pit_lap : ℚ) - 1) * ((pit_lap : ℚ) - 2) / 2 +
               ((laps : ℚ) - pit_lap + 1) * ((laps : ℚ) - pit_lap) / 2) := by
  have e1 : 1 + (pit_lap - 1) = pit_lap := by omega
  have e2 : laps - pit_lap + 1 + (pit_lap - 1) = laps := by omega
  have hsplit : List.range' 1 laps =
      List.range' 1 (pit_lap - 1) ++ List.range' pit_lap (laps - pit_lap + 1) := by
    have h := List.range'_append_1 1 (pit_lap - 1) (laps - pit_lap + 1)
    rw [e1, e2] at h
    exact h.symm
  have hA : ∀ l ∈ List.range' 1 (pit_lap - 1), l ≠ pit_lap := by
    intro l hl
    rw [List.mem_range'_1] at hl
    omega
  have hB : ∀ l ∈ List.range' (pit_lap + 1) (laps - pit_lap), l ≠ pit_lap := by
    intro l hl
    rw [List.mem_range'_1] at hl
    omega
  unfold sim_run
  rw [hsplit, List.foldl_append, foldl_no_pit base deg pit_loss pit_lap _ _ _ hA,
    List.range'_succ, List.foldl_cons]
  simp only [lap_step, eq_self_iff_true, ite_true, normal_draw_zero]
  rw [foldl_no_pit base deg pit_loss pit_lap _ _ _ hB]
  simp [stint_deg_sum]
  push_cast [Nat.cast_sub h1, Nat.cast_sub h2]
  ring

theorem mc_foldl_length (base : ℚ) (laps pit_lap : ℕ) (pit_loss deg std : ℚ) :
    ∀ (l : List ℕ) (acc : List (ℕ × ℚ) × ℕ),
    ((l.foldl (mc_step base laps pit_lap pit_loss deg std) acc).1).length
      = acc.1.length + l.length := by
  intro l
  induction l with
  | nil => intro acc; simp
  | cons a t ih =>
    intro acc
    rw [List.foldl_cons, ih]
    simp [mc_step]
    omega

theorem mc_foldl_all (base : ℚ) (laps pit_lap : ℕ) (pit_loss deg std : ℚ) (T : ℚ)
    (hT : ∀ rng, (sim_run base laps pit_lap pit_loss deg std rng).1 = T) :
    ∀ (l : List ℕ) (acc : List (ℕ × ℚ) × ℕ), (∀ p ∈ acc.1, p.2 = T) →
    ∀ p ∈ (l.foldl (mc_step base laps pit_lap pit_loss deg std) acc).1, p.2 = T := by
  intro l
  induction l with
  | nil => intro acc hacc; simpa using hacc
  | cons a t ih =>
    intro acc hacc
    rw [List.foldl_cons]
    refine ih _ ?_
    intro p hp
    rw [mc_step] at hp
    rcases List.mem_append.1 hp with h | h
    · exact hacc p h
    · rcases List.mem_singleton.1 h with rfl
      exact hT acc.2

/-- C1: with zero noise and a pit lap inside the race, every run's `race_time_s`
is the rounded closed form `laps * base + pit_loss + deg * (first-stint sum +
second-stint sum)`: the pit loss lands before the pit lap's own lap time, each
lap costs base plus degradation times the current tire age, and the terminal
cumulative time is rounded to 3 decimals. -/
theorem run_monte_carlo_strategy_zero_noise_race_time (n_runs : ℕ) (base : ℚ)
    (laps pit_lap : ℕ) (pit_loss deg : ℚ)
    (hn : 1 ≤ n_runs) (hl : 1 ≤ laps) (hp1 : 1 ≤ pit_lap) (hp2 : pit_lap ≤ laps) :
    ∃ rows, run_monte_carlo_strategy n_runs base laps pit_lap pit_loss deg 0 = Except.ok rows ∧
      rows.length = n_runs ∧
      ∀ p ∈ rows, p.2 = round3 ((laps : ℚ) * base + pit_loss +
        deg * (((pit_lap : ℚ) - 1) * ((pit_lap : ℚ) - 2) / 2 +
               ((laps : ℚ) - pit_lap + 1) * ((laps : ℚ) - pit_lap) / 2)) := by
  have hT : ∀ rng, (sim_run base laps pit_lap pit_loss deg 0 rng).1 =
      (laps : ℚ) * base + pit_loss +
        deg * (((pit_lap : ℚ) - 1) * ((pit_lap : ℚ) - 2) / 2 +
               ((laps : ℚ) - pit_lap + 1) * ((laps : ℚ) - pit_lap) / 2) :=
    fun rng => sim_run_zero_noise base laps pit_lap pit_loss deg rng hp1 hp2
  have hlen : (((List.range n_runs).foldl
      (mc_step base laps pit_lap pit_loss deg 0) ([], fixed_seed)).1).length = n_runs := by
    rw [mc_foldl_length]
    simp
  have hne : ¬ (((List.range n_runs).foldl
      (mc_step base laps pit_lap pit_loss deg 0) ([], fixed_seed)).1).isEmpty = true := by
    rw [List.isEmpty_iff_length_eq_zero, hlen]
    omega
  unfold run_monte_carlo_strategy
  rw [if_neg hne]
  refine ⟨_, rfl, by simpa using hlen, ?_⟩
  intro p hp
  rcases List.mem_map.1 hp with ⟨q, hq, rfl⟩
  have := mc_foldl_all base laps pit_lap pit_loss deg 0 _ hT (List.range n_runs)
    ([], fixed_seed) (by intro p hp; simp at hp) q hq
  simpa [this]

/-- Witness for C1 at `n_runs = 2, base = 90, laps = 5, pit_lap = 3,
pit_loss = 20, deg = 1/2, noise = 0`: closed form `472`. -/
theorem run_monte_carlo_strategy_zero_noise_race_time_witness :
    ∃ rows, run_monte_carlo_strategy 2 90 5 3 20 (1/2) 0 = Except.ok rows ∧
      rows.length = 2 ∧
      ∀ p ∈ rows, p.2 = round3 (((5 : ℕ) : ℚ) * 90 + 20 +
        (1/2) * ((((3 : ℕ) : ℚ) - 1) * (((3 : ℕ) : ℚ) - 2) / 2 +
               (((5 : ℕ) : ℚ) - ((3 : ℕ) : ℚ) + 1) * (((5 : ℕ) : ℚ) - ((3 : ℕ) : ℚ)) / 2)) :=
  run_monte_carlo_strategy_zero_noise_race_time 2 90 5 3 20 (1/2)
    (by decide) (by decide) (by decide) (by decide)

/-- C2: two calls with identical arguments in the same process produce identical
`race_time_s` sequences: each call re-seeds its own generator with the fixed
seed 42 in the function body, so no state flows between the calls. -/
theorem run_twice_deterministic (n_runs : ℕ) (base : ℚ) (laps pit_lap : ℕ)
    (pit_loss deg std : ℚ) (hn : 1 ≤ n_runs) :
    (run_twice n_runs base laps pit_lap pit_loss deg std).1 =
      (run_twice n_runs base laps pit_lap pit_loss deg std).2 := rfl

/-- Witness for C2 at a concrete argument tuple with `n_runs = 3`. -/
theorem run_twice_deterministic_witness :
    (run_twice 3 90 4 2 20 (1/10) (7/20)).1 = (run_twice 3 90 4 2 20 (1/10) (7/20)).2 :=
  run_twice_deterministic 3 90 4 2 20 (1/10) (7/20) (by decide)

/-- C10: with `n_runs = 0` no rows are produced, the empty frame has no
`race_time_s` column, and the rounding step raises a `KeyError` instead of
returning an empty table. -/
theorem run_monte_carlo_strategy_zero_runs_raises (base : ℚ) (laps pit_lap : ℕ)
    (pit_loss deg std : ℚ) :
    run_monte_carlo_strategy 0 base laps pit_lap pit_loss deg std =
      Except.error ("KeyError: race_time_s") := rfl

end Strategy

namespace DriverCompare

/-- C3: every row of `compare_two_drivers` stems from a bin present in both
drivers' binned output on the same keys (inner-join invariant; bins present for
only one driver can produce no row), and carries
`speed_delta_kph = speed_a - speed_b`. -/
theorem compare_two_drivers_inner_join (df : List TelemetryRow)
    (driver_a driver_b : String) (row : CompareRow)
    (h : row ∈ compare_two_drivers df driver_a driver_b) :
    (∃ ra ∈ telemetry_bin_average df 50, ra.driver_code = driver_a ∧
       ra.lap_number = row.lap_number ∧ ra.bin_index = row.bin_index) ∧
    (∃ rb ∈ telemetry_bin_average df 50, rb.driver_code = driver_b ∧
       rb.lap_number = row.lap_number ∧ rb.bin_index = row.bin_index) ∧
    row.speed_delta_kph = osub row.speed_a row.speed_b := by
  unfold compare_two_drivers at h
  rcases List.mem_bind.1 h with ⟨ra, hra, hmap⟩
  rcases List.mem_map.1 hmap with ⟨rb, hrb, hrow⟩
  rcases List.mem_filter.1 hra with ⟨hraB, hraD⟩
  rcases List.mem_filter.1 hrb with ⟨hrbF, hrbK⟩
  rcases List.mem_filter.1 hrbF with ⟨hrbB, hrbD⟩
  have hraD' : ra.driver_code = driver_a := of_decide_eq_true hraD
  have hrbD' : rb.driver_code = driver_b := of_decide_eq_true hrbD
  have hrbK' : rb.lap_number = ra.lap_number ∧ rb.bin_index = ra.bin_index :=
    of_decide_eq_true hrbK
  subst hrow
  refine ⟨⟨ra, hraB, hraD', rfl, rfl⟩, ⟨rb, hrbB, hrbD', hrbK'.1, hrbK'.2⟩, rfl⟩

/-- Witness for C3 on `sample_df`: the single merged row of
`compare_two_drivers sample_df "HAM" "VER"` satisfies the invariant. -/
theorem compare_two_drivers_inner_join_witness :
    (∃ ra ∈ telemetry_bin_average sample_df 50, ra.driver_code = ("HAM" : String) ∧
       ra.lap_number = sample_row.lap_number ∧ ra.bin_index = sample_row.bin_index) ∧
    (∃ rb ∈ telemetry_bin_average sample_df 50, rb.driver_code = ("VER" : String) ∧
       rb.lap_number = sample_row.lap_number ∧ rb.bin_index = sample_row.bin_index) ∧
    sample_row.speed_delta_kph = osub sample_row.speed_a sample_row.speed_b :=
  compare_two_drivers_inner_join sample_df ("HAM") ("VER") sample_row
    (by with_unfolding_all decide)

end DriverCompare

namespace TireModel

theorem getCol_isSome_num (df : NumDF) (n : String) : (getCol df n).isSome = hasCol df n := by
  induction df with
  | nil => rfl
  | cons c t ih =>
    by_cases h : c.1 = n
    · simp [getCol, hasCol, List.find?_cons, h]
    · simp only [getCol, hasCol, List.find?_cons, List.any_cons] at ih ⊢
      simp [h, ih]

theorem hasCol_append_single (df : NumDF) (n : String) (v : List (Option ℚ)) :
    hasCol (df ++ [(n, v)]) n = true := by
  simp [hasCol, List.any_append]

theorem setCol_hasCol_self (df : NumDF) (n : String) (v : List (Option ℚ)) :
    hasCol (setCol df n v) n = true := by
  unfold setCol
  split
  · next hc =>
    rcases List.any_eq_true.1 hc with ⟨c, hcmem, hcn⟩
    refine List.any_eq_true.2 ⟨(n, v), List.mem_map.2 ⟨c, hcmem, ?_⟩, by simp⟩
    simp [of_decide_eq_true hcn]
  · exact hasCol_append_single df n v

theorem setCol_hasCol_mono (df : NumDF) (n m : String) (v : List (Option ℚ))
    (h : hasCol df m = true) : hasCol (setCol df n v) m = true := by
  unfold setCol
  split
  · rcases List.any_eq_true.1 h with ⟨c, hcmem, hcm⟩
    have hcm' : c.1 = m := of_decide_eq_true hcm
    by_cases hcn : c.1 = n
    · refine List.any_eq_true.2 ⟨(n, v), List.mem_map.2 ⟨c, hcmem, by simp [hcn]⟩, ?_⟩
      simp [← hcn, hcm']
    · exact List.any_eq_true.2 ⟨c, List.mem_map.2 ⟨c, hcmem, by simp [hcn]⟩, hcm⟩
  · rw [hasCol, List.any_append]
    rw [hasCol] at h
    simp [h]

theorem append_pace_columns_hasCols (df : NumDF) (ltc : String) (tl : ℤ)
    (col : List (Option ℚ)) :
    hasCol (append_pace_columns df ltc tl col) ("fuel_mass_kg") = true ∧
    hasCol (append_pace_columns df ltc tl col) ("fuel_effect_s") = true ∧
    hasCol (append_pace_columns df ltc tl col) ("fuel_corrected_lap_s") = true ∧
    hasCol (append_pace_columns df ltc tl col) ("degradation_trend_s") = true := by
  unfold append_pace_columns
  refine ⟨?_, ?_, ?_, ?_⟩
  · exact setCol_hasCol_mono _ _ _ _ (setCol_hasCol_mono _ _ _ _
      (setCol_hasCol_mono _ _ _ _ (setCol_hasCol_self _ _ _)))
  · exact setCol_hasCol_mono _ _ _ _ (setCol_hasCol_mono _ _ _ _ (setCol_hasCol_self _ _ _))
  · exact setCol_hasCol_mono _ _ _ _ (setCol_hasCol_self _ _ _)
  · exact setCol_hasCol_self _ _ _

/-- C6 (amended): `fuel_corrected_pace` raises the missing-column value error
exactly when the lap-time column is absent; when it is present the result is
never that error, and when a `lap_number` column with at least one non-null
value is also present the call returns a table carrying the four derived
columns. -/
theorem fuel_corrected_pace_missing_column_behavior (df : NumDF) :
    (hasCol df ("lap_duration_s") = false →
       fuel_corrected_pace df = Except.error (missing_col_msg ("lap_duration_s"))) ∧
    (hasCol df ("lap_duration_s") = true →
       fuel_corrected_pace df ≠ Except.error (missing_col_msg ("lap_duration_s")) ∧
       ((((getCol df ("lap_number")).getD []).filterMap id) ≠ [] →
         ∃ out, fuel_corrected_pace df = Except.ok out ∧
           hasCol out ("fuel_mass_kg") = true ∧
           hasCol out ("fuel_effect_s") = true ∧
           hasCol out ("fuel_corrected_lap_s") = true ∧
           hasCol out ("degradation_trend_s") = true)) := by
  constructor
  · intro h
    simp [fuel_corrected_pace, h]
  · intro h
    rcases hgc : getCol df ("lap_number") with _ | col
    · have hno : hasCol df ("lap_number") = false := by
        rw [← getCol_isSome_num, hgc]
        rfl
      constructor
      · simp only [fuel_corrected_pace, h, not_true_eq_false, if_false, hno, hgc]
        intro hcontra
        exact absurd (Except.error.inj hcontra) (by decide)
      · intro hn
        simp at hn
    · have hyes : hasCol df ("lap_number") = true := by
        rw [← getCol_isSome_num, hgc]
        rfl
      rcases hm : (col.filterMap id).max? with _ | m
      · have hcol : col.filterMap id = [] := List.max?_eq_none_iff.1 hm
        constructor
        · simp only [fuel_corrected_pace, h, not_true_eq_false, if_false, hyes, if_true, hgc,
            Option.getD_some, hm]
          intro hcontra
          exact absurd (Except.error.inj hcontra) (by decide)
        · intro hn
          simp only [Option.getD_some] at hn
          exact absurd hcol hn
      · constructor
        · simp only [fuel_corrected_pace, h, not_true_eq_false, if_false, hyes, if_true, hgc,
            Option.getD_some, hm]
          intro hcontra
          exact Except.noConfusion hcontra
        · intro _
          refine ⟨append_pace_columns df ("lap_duration_s") (int_trunc m) col, ?_,
            append_pace_columns_hasCols df ("lap_duration_s") (int_trunc m) col⟩
          simp only [fuel_corrected_pace, h, not_true_eq_false, if_false, hyes, if_true, hgc,
            Option.getD_some, hm]

/-- Witness for (amended) C6 on a table with lap times and lap numbers. -/
theorem fuel_corrected_pace_missing_column_behavior_witness :
    ∃ out, fuel_corrected_pace c6_good_df = Except.ok out ∧
      hasCol out ("fuel_mass_kg") = true ∧
      hasCol out ("fuel_effect_s") = true ∧
      hasCol out ("fuel_corrected_lap_s") = true ∧
      hasCol out ("degradation_trend_s") = true :=
  ((fuel_corrected_pace_missing_column_behavior c6_good_df).2 rfl).2 (by decide)

/-- Counterexample to C6 as stated: this table contains the lap-time column,
yet the call raises (a `KeyError` for the absent `lap_number` column) instead
of returning a table with the four derived columns. -/
theorem fuel_corrected_pace_c6_counterexample :
    hasCol c6_bad_df ("lap_duration_s") = true ∧
    fuel_corrected_pace c6_bad_df = Except.error ("KeyError: lap_number") :=
  ⟨rfl, rfl⟩

/-- C7: evaluation at the failing input.  The source guards the `total_laps`
inference on the presence of `lap_number` (falling back to the row count) but
then accesses `df["lap_number"]` unconditionally, so a table without that
column raises a `KeyError` rather than completing. -/
theorem fuel_corrected_pace_no_lap_number_raises :
    fuel_corrected_pace c7_df = Except.error ("KeyError: lap_number") := rfl

end TireModel

namespace Normalization

theorem countCol_append (df df' : DF) (n : String) :
    countCol (df ++ df') n = countCol df n + countCol df' n := by
  simp [countCol]

theorem countCol_pos_iff (df : DF) (n : String) :
    0 < countCol df n ↔ hasCol df n = true := by
  rw [countCol, List.countP_pos_iff, hasCol, List.any_eq_true]

theorem countCol_eq_zero_iff (df : DF) (n : String) :
    countCol df n = 0 ↔ hasCol df n = false := by
  rw [← Bool.not_eq_true, ← countCol_pos_iff]
  omega

theorem getCol_isSome (df : DF) (n : String) : (getCol df n).isSome = hasCol df n := by
  induction df with
  | nil => rfl
  | cons c t ih =>
    by_cases h : c.1 = n
    · simp [getCol, hasCol, List.find?_cons, h]
    · simp only [getCol, hasCol, List.find?_cons, List.any_cons] at ih ⊢
      simp [h, ih]

theorem getCol_eq_none_iff (df : DF) (n : String) :
    getCol df n = none ↔ hasCol df n = false := by
  rw [← getCol_isSome]
  cases getCol df n <;> simp

theorem getCol_of_countCol_pos (df : DF) (n : String) (h : 0 < countCol df n) :
    ∃ v, getCol df n = some v := by
  have := (countCol_pos_iff df n).1 h
  rw [← getCol_isSome] at this
  cases hg : getCol df n with
  | none => rw [hg] at this; exact absurd this (by simp)
  | some v => exact ⟨v, rfl⟩

theorem getCol_cons (c : String × List Cell) (t : DF) (n : String) :
    getCol (c :: t) n = if c.1 = n then some c.2 else getCol t n := by
  by_cases h : c.1 = n
  · rw [getCol, List.find?_cons_of_pos _ (by simp [h]), if_pos h]
    rfl
  · rw [getCol, List.find?_cons_of_neg _ (by simp [h]), if_neg h]
    rfl

theorem mapCol_cons (c : String × List Cell) (t : DF) (n : String)
    (g : List Cell → List Cell) :
    mapCol (c :: t) n g = (if c.1 = n then (n, g c.2) else c) :: mapCol t n g := rfl

theorem mapCol_colNames (df : DF) (n : String) (g : List Cell → List Cell) :
    colNames (mapCol df n g) = colNames df := by
  rw [colNames, mapCol, List.map_map, colNames]
  apply List.map_congr_left
  intro c _
  by_cases h : c.1 = n
  · simp [h]
  · simp [h]

theorem countCol_eq_countP_names (df : DF) (n : String) :
    countCol df n = List.countP (fun s => decide (s = n)) (colNames df) := by
  rw [colNames, List.countP_map]
  rfl

theorem countCol_congr (df df' : DF) (n : String) (h : colNames df = colNames df') :
    countCol df n = countCol df' n := by
  rw [countCol_eq_countP_names, countCol_eq_countP_names, h]

theorem mapCol_countCol (df : DF) (n m : String) (g : List Cell → List Cell) :
    countCol (mapCol df n g) m = countCol df m :=
  countCol_congr _ _ _ (mapCol_colNames df n g)

theorem mapCol_getCol_self (df : DF) (n : String) (g : List Cell → List Cell) :
    getCol (mapCol df n g) n = (getCol df n).map g := by
  induction df with
  | nil => rfl
  | cons c t ih =>
    rw [mapCol_cons]
    by_cases h : c.1 = n
    · rw [if_pos h, getCol_cons, getCol_cons, if_pos h, if_pos (show (n, g c.2).1 = n from rfl)]
      rfl
    · rw [if_neg h, getCol_cons, getCol_cons, if_neg h, if_neg h]
      exact ih

theorem mapCol_getCol_ne (df : DF) (n m : String) (g : List Cell → List Cell)
    (hmn : m ≠ n) : getCol (mapCol df n g) m = getCol df m := by
  have hnm : ¬ ((n : String) = m) := fun e => hmn e.symm
  induction df with
  | nil => rfl
  | cons c t ih =>
    rw [mapCol_cons]
    by_cases h : c.1 = n
    · have hcm : ¬ (c.1 = m) := by rw [h]; exact hnm
      rw [if_pos h, getCol_cons, getCol_cons, if_neg (show ¬ ((n, g c.2).1 = m) from hnm),
        if_neg hcm]
      exact ih
    · rw [if_neg h, getCol_cons, getCol_cons]
      by_cases hcm : c.1 = m
      · rw [if_pos hcm, if_pos hcm]
      · rw [if_neg hcm, if_neg hcm]
        exact ih

theorem getCol_append_left (df df' : DF) (n : String) (v : List Cell)
    (h : getCol df n = some v) : getCol (df ++ df') n = some v := by
  rw [getCol, List.find?_append]
  rw [getCol] at h
  cases hf : List.find? (fun c => decide (c.1 = n)) df with
  | none => rw [hf] at h; exact absurd h (by simp)
  | some c => rw [hf] at h; simp at h ⊢; exact h

theorem getCol_append_right_single (df : DF) (n : String) (v : List Cell)
    (h : hasCol df n = false) : getCol (df ++ [(n, v)]) n = some v := by
  rw [getCol, List.find?_append]
  have hn : List.find? (fun c => decide (c.1 = n)) df = none := by
    have := (getCol_eq_none_iff df n).2 h
    rw [getCol] at this
    cases hf : List.find? (fun c => decide (c.1 = n)) df with
    | none => rfl
    | some c => rw [hf] at this; exact absurd this (by simp)
  rw [hn]
  simp [List.find?_cons]

theorem getCol_append_single_ne (df : DF) (n m : String) (v : List Cell)
    (hmn : m ≠ n) : getCol (df ++ [(n, v)]) m = getCol df m := by
  rw [getCol, List.find?_append, getCol]
  have h1 : List.find? (fun c => decide (c.1 = m)) [(n, v)] = none := by
    rw [List.find?_cons_of_neg]
    · rfl
    · simp only [decide_eq_true_eq]
      exact fun e => hmn e.symm
  rw [h1]
  cases List.find? (fun c => decide (c.1 = m)) df <;> rfl

theorem countCol_single_ne (n m : String) (v : List Cell) (hmn : m ≠ n) :
    countCol [(n, v)] m = 0 := by
  have h : ¬ ((n : String) = m) := fun e => hmn e.symm
  simp [countCol, h]

theorem setCol_countCol_ne (df : DF) (n m : String) (v : List Cell) (hmn : m ≠ n) :
    countCol (setCol df n v) m = countCol df m := by
  unfold setCol
  split
  · exact mapCol_countCol df n m _
  · rw [countCol_append, countCol_single_ne n m v hmn]
    omega

theorem setCol_countCol_self (df : DF) (n : String) (v : List Cell) :
    countCol (setCol df n v) n = max 1 (countCol df n) := by
  unfold setCol
  split
  · next h =>
    rw [mapCol_countCol df n n]
    have : 0 < countCol df n := (countCol_pos_iff df n).2 h
    omega
  · next h =>
    have h0 : countCol df n = 0 := (countCol_eq_zero_iff df n).2 (by
      cases hb : hasCol df n
      · rfl
      · exact absurd hb h)
    rw [countCol_append, h0]
    simp [countCol]

theorem setCol_getCol_ne (df : DF) (n m : String) (v : List Cell) (hmn : m ≠ n) :
    getCol (setCol df n v) m = getCol df m := by
  unfold setCol
  split
  · exact mapCol_getCol_ne df n m _ hmn
  · exact getCol_append_single_ne df n m v hmn

end Normalization

namespace Normalization

theorem nRows_append_left (df df' : DF) (h : df ≠ []) : nRows (df ++ df') = nRows df := by
  cases df with
  | nil => exact absurd rfl h
  | cons c t => rfl

theorem rename_nRows (df : DF) (mapping : List (String × String)) :
    nRows (rename_with_synonyms df mapping) = nRows df := by
  cases df with
  | nil => rfl
  | cons c t =>
    simp only [rename_with_synonyms, List.map_cons, nRows]
    cases (List.find? (fun p => p.1 = strip_lower c.1) mapping).map (fun p => p.2) <;> rfl

theorem setCol_nRows (df : DF) (n : String) (x : Cell) :
    nRows (setCol df n (List.replicate (nRows df) x)) = nRows df := by
  unfold setCol
  split
  · cases df with
    | nil => rfl
    | cons c t =>
      rw [mapCol_cons]
      by_cases h : c.1 = n
      · rw [if_pos h]
        simp [nRows]
      · rw [if_neg h]
        rfl
  · cases df with
    | nil => simp [nRows]
    | cons c t => rfl

theorem fill_countCol_pos (nr : ℕ) :
    ∀ (cols : List String) (df : DF) (n : String), 1 ≤ countCol df n →
    countCol (fill_missing df cols nr) n = countCol df n := by
  intro cols
  induction cols with
  | nil => intro df n _; rfl
  | cons c rest ih =>
    intro df n h
    rw [fill_missing]
    by_cases hc : hasCol df c
    · rw [if_pos hc]
      exact ih df n h
    · rw [if_neg hc]
      have hnc : n ≠ c := by
        intro e
        subst e
        have := (countCol_eq_zero_iff df n).2 (by
          cases hb : hasCol df n
          · rfl
          · exact absurd hb hc)
        omega
      have hcount : countCol (df ++ [(c, List.replicate nr Cell.null)]) n = countCol df n := by
        rw [countCol_append, countCol_single_ne c n _ hnc]
        omega
      rw [ih _ n (by rw [hcount]; exact h), hcount]

end Normalization

namespace Normalization

theorem fill_getCol_pres (nr : ℕ) :
    ∀ (cols : List String) (df : DF) (n : String) (v : List Cell), getCol df n = some v →
    getCol (fill_missing df cols nr) n = some v := by
  intro cols
  induction cols with
  | nil => intro df n v h; exact h
  | cons c rest ih =>
    intro df n v h
    rw [fill_missing]
    by_cases hc : hasCol df c
    · rw [if_pos hc]
      exact ih df n v h
    · rw [if_neg hc]
      have hnc : n ≠ c := by
        intro e
        subst e
        have h1 : (getCol df n).isSome = true := by rw [h]; rfl
        rw [getCol_isSome] at h1
        exact hc h1
      exact ih _ n v (by rw [getCol_append_single_ne df c n _ hnc]; exact h)

theorem fill_new (nr : ℕ) :
    ∀ (cols : List String) (df : DF) (n : String), countCol df n = 0 → n ∈ cols →
    countCol (fill_missing df cols nr) n = 1 ∧
    getCol (fill_missing df cols nr) n = some (List.replicate nr Cell.null) := by
  intro cols
  induction cols with
  | nil => intro df n _ hmem; exact absurd hmem (by simp)
  | cons c rest ih =>
    intro df n h0 hmem
    rw [fill_missing]
    by_cases hnc : n = c
    · subst hnc
      have hfalse : hasCol df n = false := (countCol_eq_zero_iff df n).1 h0
      rw [if_neg (by rw [hfalse]; exact Bool.false_ne_true)]
      have hcount : countCol (df ++ [(n, List.replicate nr Cell.null)]) n = 1 := by
        rw [countCol_append, h0]
        simp [countCol]
      have hget : getCol (df ++ [(n, List.replicate nr Cell.null)]) n =
          some (List.replicate nr Cell.null) :=
        getCol_append_right_single df n _ hfalse
      exact ⟨by rw [fill_countCol_pos nr rest _ n (by omega), hcount],
             fill_getCol_pres nr rest _ n _ hget⟩
    · have hmem' : n ∈ rest := by
        rcases List.mem_cons.1 hmem with h | h
        · exact absurd h hnc
        · exact h
      by_cases hc : hasCol df c
      · rw [if_pos hc]
        exact ih df n h0 hmem'
      · rw [if_neg hc]
        refine ih _ n ?_ hmem'
        rw [countCol_append, h0, countCol_single_ne c n _ hnc]

theorem fill_mem_count_one (nr : ℕ) (cols : List String) (df : DF) (n : String)
    (hmem : n ∈ cols) (hle : countCol df n ≤ 1) :
    countCol (fill_missing df cols nr) n = 1 := by
  rcases Nat.lt_or_ge (countCol df n) 1 with h | h
  · exact (fill_new nr cols df n (by omega) hmem).1
  · have h1 : countCol df n = 1 := by omega
    rw [fill_countCol_pos nr cols df n (by omega), h1]

theorem countCol_zero_filter (df : DF) (n : String) (h : countCol df n = 0) :
    df.filter (fun c => decide (c.1 = n)) = [] := by
  rw [List.filter_eq_nil_iff]
  intro c hc
  have := List.countP_eq_zero.1 h c hc
  simpa using this

theorem filter_of_countCol_one (df : DF) (n : String) (h : countCol df n = 1) :
    ∃ v, df.filter (fun c => decide (c.1 = n)) = [(n, v)] ∧ getCol df n = some v := by
  induction df with
  | nil => exact absurd h (by simp [countCol])
  | cons c t ih =>
    by_cases hc : c.1 = n
    · have h0 : countCol t n = 0 := by
        rw [countCol] at h ⊢
        rw [List.countP_cons_of_pos _ _ (by simpa using hc)] at h
        omega
      refine ⟨c.2, ?_, ?_⟩
      · rw [List.filter_cons_of_pos (by simpa using hc), countCol_zero_filter t n h0]
        have : c = (n, c.2) := by
          rcases c with ⟨a, v⟩
          simp at hc
          rw [hc]
        rw [← this]
      · rw [getCol_cons, if_pos hc]
    · have h1 : countCol t n = 1 := by
        rw [countCol] at h ⊢
        rw [List.countP_cons_of_neg _ _ (by simpa using hc)] at h
        exact h
      rcases ih h1 with ⟨v, hf, hg⟩
      refine ⟨v, ?_, ?_⟩
      · rw [List.filter_cons_of_neg (by simpa using hc), hf]
      · rw [getCol_cons, if_neg hc]
        exact hg

theorem select_cols_cons (df : DF) (c : String) (rest : List String) :
    select_cols df (c :: rest) = df.filter (fun x => decide (x.1 = c)) ++ select_cols df rest := rfl

theorem select_colNames (df : DF) :
    ∀ (cols : List String), (∀ c ∈ cols, countCol df c = 1) →
    colNames (select_cols df cols) = cols := by
  intro cols
  induction cols with
  | nil => intro _; rfl
  | cons c rest ih =>
    intro h
    rcases filter_of_countCol_one df c (h c (by simp)) with ⟨v, hf, _⟩
    rw [select_cols_cons, hf, colNames, List.map_append, ← colNames, ← colNames,
      ih (fun c' hc' => h c' (List.mem_cons_of_mem _ hc'))]
    rfl

theorem select_getCol (df : DF) :
    ∀ (cols : List String), (∀ c ∈ cols, countCol df c = 1) →
    ∀ n ∈ cols, getCol (select_cols df cols) n = getCol df n := by
  intro cols
  induction cols with
  | nil => intro _ n hn; exact absurd hn (by simp)
  | cons c rest ih =>
    intro h n hn
    rcases filter_of_countCol_one df c (h c (by simp)) with ⟨v, hf, hg⟩
    rw [select_cols_cons, hf]
    by_cases hnc : n = c
    · subst hnc
      rw [List.singleton_append, getCol_cons, if_pos rfl, hg]
    · rw [List.singleton_append, getCol_cons, if_neg (fun e => hnc e.symm)]
      have hn' : n ∈ rest := by
        rcases List.mem_cons.1 hn with h' | h'
        · exact absurd h' hnc
        · exact h'
      exact ih (fun c' hc' => h c' (List.mem_cons_of_mem _ hc')) n hn'

end Normalization

namespace Normalization

theorem coerce_all_ok :
    ∀ (cols : List String) (df : DF), cols.Nodup → (∀ c ∈ cols, countCol df c = 1) →
    ∃ out, coerce_numeric_all df cols = Except.ok out ∧
      colNames out = colNames df ∧
      (∀ m, m ∉ cols → getCol out m = getCol df m) ∧
      (∀ c ∈ cols, getCol out c = (getCol df c).map (List.map coerceCell)) := by
  intro cols
  induction cols with
  | nil =>
    intro df _ _
    exact ⟨df, rfl, rfl, fun m _ => rfl, fun c hc => absurd hc (by simp)⟩
  | cons c rest ih =>
    intro df hnd h1
    have hc1 : countCol df c = 1 := h1 c (by simp)
    have hstep : to_numeric_col df c = Except.ok (mapCol df c (List.map coerceCell)) := by
      rw [to_numeric_col, hc1]
    have hnames : colNames (mapCol df c (List.map coerceCell)) = colNames df :=
      mapCol_colNames df c _
    have hcount' : ∀ c' ∈ rest, countCol (mapCol df c (List.map coerceCell)) c' = 1 :=
      fun c' hc' => by
        rw [countCol_congr _ df c' hnames]
        exact h1 c' (List.mem_cons_of_mem _ hc')
    obtain ⟨out, ho, hn2, hout_ne, hout_mem⟩ :=
      ih (mapCol df c (List.map coerceCell)) (List.nodup_cons.1 hnd).2 hcount'
    have hcrest : c ∉ rest := (List.nodup_cons.1 hnd).1
    refine ⟨out, ?_, by rw [hn2, hnames], ?_, ?_⟩
    · rw [coerce_numeric_all, hstep]
      exact ho
    · intro m hm
      rw [hout_ne m (fun hmem => hm (List.mem_cons_of_mem _ hmem))]
      exact mapCol_getCol_ne df c m _ (fun e => hm (by rw [e]; exact List.mem_cons_self c rest))
    · intro c' hc'
      rcases List.mem_cons.1 hc' with rfl | hr
      · rw [hout_ne c' hcrest]
        exact mapCol_getCol_self df c' _
      · rw [hout_mem c' hr]
        rw [mapCol_getCol_ne df c c' _ (fun e => hcrest (e ▸ hr))]

theorem coerce_all_dup_error :
    ∀ (cols : List String) (df : DF), (∀ c ∈ cols, 1 ≤ countCol df c) →
    (∃ c ∈ cols, 2 ≤ countCol df c) →
    coerce_numeric_all df cols =
      Except.error ("TypeError: arg must be a list, tuple, 1-d array, or Series") := by
  intro cols
  induction cols with
  | nil =>
    intro df _ hex
    rcases hex with ⟨c, hc, _⟩
    exact absurd hc (by simp)
  | cons c rest ih =>
    intro df h1 hex
    by_cases h2 : 2 ≤ countCol df c
    · obtain ⟨k, hk⟩ : ∃ k, countCol df c = k + 2 := ⟨countCol df c - 2, by omega⟩
      rw [coerce_numeric_all, to_numeric_col, hk]
      rfl
    · have hc1 : countCol df c = 1 := by
        have := h1 c (by simp)
        omega
      have hstep : to_numeric_col df c = Except.ok (mapCol df c (List.map coerceCell)) := by
        rw [to_numeric_col, hc1]
      rw [coerce_numeric_all, hstep]
      have hnames : colNames (mapCol df c (List.map coerceCell)) = colNames df :=
        mapCol_colNames df c _
      apply ih
      · intro c' hc'
        rw [countCol_congr _ df c' hnames]
        exact h1 c' (List.mem_cons_of_mem _ hc')
      · rcases hex with ⟨c₀, hc₀mem, hc₀2⟩
        have hne : c₀ ≠ c := fun e => by rw [e, hc1] at hc₀2; omega
        rcases List.mem_cons.1 hc₀mem with e | hr
        · exact absurd e hne
        · exact ⟨c₀, hr, by rw [countCol_congr _ df c₀ hnames]; exact hc₀2⟩

theorem stamps_countCol (R : DF) (v1 v2 : List Cell) (c : String)
    (h1 : c ≠ "source_type") (h2 : c ≠ "session_id") :
    countCol (setCol (setCol R ("source_type") v1) ("session_id") v2) c = countCol R c := by
  rw [setCol_countCol_ne _ _ _ _ h2, setCol_countCol_ne _ _ _ _ h1]

theorem stamps_getCol (R : DF) (v1 v2 : List Cell) (c : String)
    (h1 : c ≠ "source_type") (h2 : c ≠ "session_id") :
    getCol (setCol (setCol R ("source_type") v1) ("session_id") v2) c = getCol R c := by
  rw [setCol_getCol_ne _ _ _ _ h2, setCol_getCol_ne _ _ _ _ h1]

end Normalization

namespace Normalization

theorem coerceCell_null : coerceCell Cell.null = Cell.null := rfl

theorem stamped_countCol_ne (df0 : DF) (sid : String) (c : String)
    (h1 : c ≠ "source_type") (h2 : c ≠ "session_id") :
    countCol (stamped df0 sid) c = countCol (rename_with_synonyms df0 USER_SYNONYMS) c := by
  simp only [stamped]
  rw [setCol_countCol_ne _ _ _ _ h2, setCol_countCol_ne _ _ _ _ h1]

theorem stamped_getCol_ne (df0 : DF) (sid : String) (c : String)
    (h1 : c ≠ "source_type") (h2 : c ≠ "session_id") :
    getCol (stamped df0 sid) c = getCol (rename_with_synonyms df0 USER_SYNONYMS) c := by
  simp only [stamped]
  rw [setCol_getCol_ne _ _ _ _ h2, setCol_getCol_ne _ _ _ _ h1]

theorem stamped_countCol_source (df0 : DF) (sid : String) :
    countCol (stamped df0 sid) ("source_type") =
      max 1 (countCol (rename_with_synonyms df0 USER_SYNONYMS) ("source_type")) := by
  simp only [stamped]
  rw [setCol_countCol_ne _ _ _ _ (by decide), setCol_countCol_self]

theorem stamped_countCol_session (df0 : DF) (sid : String) :
    countCol (stamped df0 sid) ("session_id") =
      max 1 (countCol (rename_with_synonyms df0 USER_SYNONYMS) ("session_id")) := by
  simp only [stamped]
  rw [setCol_countCol_self, setCol_countCol_ne _ _ _ _ (by decide)]

theorem stamped_nRows (df0 : DF) (sid : String) : nRows (stamped df0 sid) = nRows df0 := by
  simp only [stamped]
  rw [setCol_nRows, setCol_nRows, rename_nRows]

/-- C4 (amended): on raw tables where no two columns map to the same canonical
name, `normalize_user_telemetry` returns a table whose columns are exactly the
canonical list in canonical order; synonym-renamed numeric columns are coerced
cellwise (unparseable cells becoming null, never raising), absent numeric
canonical columns become all-null columns, and the remaining non-stamped
canonical columns pass through (or are null-filled when absent).  In
particular a raw `"Lap"` column (and no other column renaming to
`lap_number`) becomes the numeric-coerced `lap_number` column. -/
theorem normalize_user_telemetry_canonical (df0 : DF) (sid : String)
    (H : ∀ c ∈ USER_SCHEMA_COLUMNS, countCol (rename_with_synonyms df0 USER_SYNONYMS) c ≤ 1) :
    ∃ out, normalize_user_telemetry df0 sid = Except.ok out ∧
      colNames out = USER_SCHEMA_COLUMNS ∧
      (∀ c ∈ USER_NUMERIC_COLS, ∀ v, getCol (rename_with_synonyms df0 USER_SYNONYMS) c = some v →
        getCol out c = some (v.map coerceCell)) ∧
      (∀ c ∈ USER_NUMERIC_COLS, getCol (rename_with_synonyms df0 USER_SYNONYMS) c = none →
        getCol out c = some (List.replicate (nRows df0) Cell.null)) ∧
      (∀ c ∈ USER_SCHEMA_COLUMNS, c ∉ USER_NUMERIC_COLS →
        c ≠ "source_type" → c ≠ "session_id" →
        getCol out c = some ((getCol (rename_with_synonyms df0 USER_SYNONYMS) c).getD
          (List.replicate (nRows df0) Cell.null))) := by
  have hnr3 : nRows (stamped df0 sid) = nRows df0 := stamped_nRows df0 sid
  have hsub : ∀ c ∈ USER_NUMERIC_COLS, c ∈ USER_SCHEMA_COLUMNS := by decide
  have hnumst : ∀ c ∈ USER_NUMERIC_COLS, c ≠ "source_type" ∧ c ≠ "session_id" := by decide
  have hle3 : ∀ c ∈ USER_SCHEMA_COLUMNS, countCol (stamped df0 sid) c ≤ 1 := by
    intro c hc
    by_cases h1 : c = "source_type"
    · rw [h1, stamped_countCol_source]
      have := H ("source_type") (by decide)
      omega
    · by_cases h2 : c = "session_id"
      · rw [h2, stamped_countCol_session]
        have := H ("session_id") (by decide)
        omega
      · rw [stamped_countCol_ne df0 sid c h1 h2]
        exact H c hc
  have hc4 : ∀ c ∈ USER_SCHEMA_COLUMNS, countCol (prepared df0 sid) c = 1 := by
    intro c hc
    rw [prepared]
    exact fill_mem_count_one _ _ _ c hc (hle3 c hc)
  obtain ⟨d5, hok, hnames5, hne5, hmem5⟩ :=
    coerce_all_ok USER_NUMERIC_COLS (prepared df0 sid) (by decide)
      (fun c hc => hc4 c (hsub c hc))
  have hc5 : ∀ c ∈ USER_SCHEMA_COLUMNS, countCol d5 c = 1 := fun c hc => by
    rw [countCol_congr d5 _ c hnames5]
    exact hc4 c hc
  have heq : normalize_user_telemetry df0 sid =
      Except.ok (select_cols d5 USER_SCHEMA_COLUMNS) := by
    rw [normalize_user_telemetry, hok]
    rfl
  have hgd4 : ∀ c ∈ USER_SCHEMA_COLUMNS, c ≠ "source_type" → c ≠ "session_id" →
      getCol (prepared df0 sid) c =
        some ((getCol (rename_with_synonyms df0 USER_SYNONYMS) c).getD
          (List.replicate (nRows df0) Cell.null)) := by
    intro c hc h1 h2
    cases hv : getCol (rename_with_synonyms df0 USER_SYNONYMS) c with
    | none =>
      have hz : countCol (stamped df0 sid) c = 0 := by
        rw [stamped_countCol_ne df0 sid c h1 h2, countCol_eq_zero_iff, ← getCol_eq_none_iff]
        exact hv
      rw [prepared, (fill_new (nRows (stamped df0 sid)) USER_SCHEMA_COLUMNS _ c hz hc).2, hnr3]
      rfl
    | some v =>
      have hsome : getCol (stamped df0 sid) c = some v := by
        rw [stamped_getCol_ne df0 sid c h1 h2]
        exact hv
      rw [prepared, fill_getCol_pres _ _ _ c v hsome]
      rfl
  refine ⟨select_cols d5 USER_SCHEMA_COLUMNS, heq,
    select_colNames d5 USER_SCHEMA_COLUMNS hc5, ?_, ?_, ?_⟩
  · intro c hc v hv
    have hcc := hnumst c hc
    rw [select_getCol d5 USER_SCHEMA_COLUMNS hc5 c (hsub c hc), hmem5 c hc,
      hgd4 c (hsub c hc) hcc.1 hcc.2, hv]
    rfl
  · intro c hc hv
    have hcc := hnumst c hc
    rw [select_getCol d5 USER_SCHEMA_COLUMNS hc5 c (hsub c hc), hmem5 c hc,
      hgd4 c (hsub c hc) hcc.1 hcc.2, hv]
    simp [List.map_replicate, coerceCell_null]
  · intro c hc hnum h1 h2
    rw [select_getCol d5 USER_SCHEMA_COLUMNS hc5 c hc, hne5 c hnum, hgd4 c hc h1 h2]

/-- C8 (amended): when two raw columns rename to the same declared numeric
canonical column, no first-match or last-write resolution happens — both
columns are renamed, the duplicate survives to the coercion loop, and
`pd.to_numeric` on the resulting two-column selection raises a type error, so
the whole call fails rather than keeping one column. -/
theorem normalize_user_telemetry_collision (df0 : DF) (sid : String)
    (H : ∃ c ∈ USER_NUMERIC_COLS, 2 ≤ countCol (rename_with_synonyms df0 USER_SYNONYMS) c) :
    normalize_user_telemetry df0 sid =
      Except.error ("TypeError: arg must be a list, tuple, 1-d array, or Series") := by
  have hsub : ∀ c ∈ USER_NUMERIC_COLS, c ∈ USER_SCHEMA_COLUMNS := by decide
  have hnumst : ∀ c ∈ USER_NUMERIC_COLS, c ≠ "source_type" ∧ c ≠ "session_id" := by decide
  have h1 : ∀ c ∈ USER_NUMERIC_COLS, 1 ≤ countCol (prepared df0 sid) c := by
    intro c hc
    rw [prepared]
    by_cases hz : countCol (stamped df0 sid) c = 0
    · rw [(fill_new _ _ _ c hz (hsub c hc)).1]
    · rw [fill_countCol_pos _ _ _ c (by omega)]
      omega
  have hex : ∃ c ∈ USER_NUMERIC_COLS, 2 ≤ countCol (prepared df0 sid) c := by
    obtain ⟨c, hc, h2⟩ := H
    have h3 : countCol (stamped df0 sid) c =
        countCol (rename_with_synonyms df0 USER_SYNONYMS) c :=
      stamped_countCol_ne df0 sid c (hnumst c hc).1 (hnumst c hc).2
    refine ⟨c, hc, ?_⟩
    rw [prepared, fill_countCol_pos _ _ _ c (by omega), h3]
    exact h2
  rw [normalize_user_telemetry, coerce_all_dup_error USER_NUMERIC_COLS (prepared df0 sid) h1 hex]
  rfl

/-- Counterexample to C8 as stated: the raw columns "Lap" and "lap " both
rename to `lap_number`; the call then raises a type error instead of resolving
the collision first-match-wins into a single column. -/
theorem normalize_user_telemetry_c8_counterexample :
    normalize_user_telemetry c8_df ("s") =
      Except.error ("TypeError: arg must be a list, tuple, 1-d array, or Series") := by
  with_unfolding_all rfl

/-- Counterexample to C4 as stated: on the raw table with columns "Lap" and
"LAP" the call raises instead of returning a canonical-column table. -/
theorem normalize_user_telemetry_c4_counterexample :
    normalize_user_telemetry c4_bad_df ("s") =
      Except.error ("TypeError: arg must be a list, tuple, 1-d array, or Series") := by
  with_unfolding_all rfl

/-- Witness for (amended) C4 on the Lap example scenario: the output columns
are exactly canonical and the `lap_number` column is the numeric-coerced
renamed "Lap" column. -/
theorem normalize_user_telemetry_canonical_witness :
    ∃ out, normalize_user_telemetry c4_raw_df ("s1") = Except.ok out ∧
      colNames out = USER_SCHEMA_COLUMNS ∧
      (∀ v, getCol (rename_with_synonyms c4_raw_df USER_SYNONYMS) ("lap_number") = some v →
        getCol out ("lap_number") = some (v.map coerceCell)) := by
  obtain ⟨out, h1, h2, h3, _, _⟩ :=
    normalize_user_telemetry_canonical c4_raw_df ("s1") (by with_unfolding_all decide)
  exact ⟨out, h1, h2, fun v hv => h3 ("lap_number") (by decide) v hv⟩

/-- Witness for (amended) C8 on `c8_df`: the collision hypothesis holds there. -/
theorem normalize_user_telemetry_collision_witness :
    normalize_user_telemetry c8_df ("w") =
      Except.error ("TypeError: arg must be a list, tuple, 1-d array, or Series") :=
  normalize_user_telemetry_collision c8_df ("w")
    ⟨"lap_number", by decide, by with_unfolding_all decide⟩

end Normalization

namespace Schemas

theorem orElse_eq_none (a b : Option String) : (a <|> b) = none ↔ a = none ∧ b = none := by
  cases a <;> simp [Option.orElse]

theorem reqCheck_eq_none_iff (r : Row) (k : String) (ok : Cell → Bool) (msg : String) :
    reqCheck r k ok msg = none ↔ reqOk r k ok := by
  unfold reqCheck reqOk
  cases h : getVal r k with
  | none => simp
  | some c =>
    by_cases hok : ok c = true
    · simp [hok]
    · simp [hok]

theorem optCheck_eq_none_iff (r : Row) (k : String) (ok : Cell → Bool) (msg : String) :
    optCheck r k ok msg = none ↔ optOk r k ok := by
  unfold optCheck optOk
  cases h : getVal r k with
  | none => simp
  | some c =>
    by_cases hnull : c = Cell.null
    · simp [hnull]
    · by_cases hok : ok c = true
      · simp [hnull, hok]
      · simp [hnull, hok]

theorem defCheck_eq_none_iff (r : Row) (k : String) (ok : Cell → Bool) (msg : String) :
    defCheck r k ok msg = none ↔ defOk r k ok := by
  unfold defCheck defOk
  cases h : getVal r k with
  | none => simp
  | some c =>
    by_cases hok : ok c = true
    · simp [hok]
    · simp [hok]

theorem firstViolation_none_iff (r : Row) :
    firstViolation_telemetry r = none ↔ specValidTelemetryRow r := by
  unfold firstViolation_telemetry specValidTelemetryRow
  simp only [orElse_eq_none, reqCheck_eq_none_iff, optCheck_eq_none_iff, defCheck_eq_none_iff]

/-- C5 (amended): a row is counted valid by the validator exactly when all
required fields are present and coercible to their declared semantic type
(strings accepted whether empty or not, numerics parse, integers whole, enum
restricted to the declared values) and every optional field is absent, null or
coercible. -/
theorem validate_row_iff_spec (r : Row) :
    (validate_rows firstViolation_telemetry [r]).valid_rows = 1 ↔
      specValidTelemetryRow r := by
  have hiff := firstViolation_none_iff r
  cases h : firstViolation_telemetry r with
  | none =>
    constructor
    · intro _
      exact hiff.1 h
    · intro _
      simp [validate_rows, List.enum, List.enumFrom, validate_step, h]
  | some m =>
    constructor
    · intro hv
      exfalso
      simp [validate_rows, List.enum, List.enumFrom, validate_step, h] at hv
    · intro hs
      have := hiff.2 hs
      rw [h] at this
      exact Option.noConfusion this

/-- Counterexample to C5 as stated: the row with an empty `driver_code` string
is counted valid, not invalid — pydantic's plain `str` field accepts the empty
string. -/
theorem validate_empty_driver_code_counterexample :
    (validate_rows firstViolation_telemetry [empty_driver_row]).valid_rows = 1 ∧
    getVal empty_driver_row ("driver_code") = some (Cell.str ("")) := by
  constructor
  · with_unfolding_all rfl
  · with_unfolding_all rfl

/-- Witness for (amended) C5: a fully well-formed row is counted valid. -/
theorem validate_row_iff_spec_witness :
    (validate_rows firstViolation_telemetry [good_row]).valid_rows = 1 :=
  (validate_row_iff_spec good_row).mpr
    ((firstViolation_none_iff good_row).1 (by with_unfolding_all rfl))

theorem validate_fold (check : Row → Option String) :
    ∀ (l : List (ℕ × Row)) (v iv : ℕ) (es : List String),
    l.foldl (validate_step check) (v, iv, es) =
      (v + l.countP (fun ir => (check ir.2).isNone),
       iv + l.countP (fun ir => (check ir.2).isSome),
       es ++ l.filterMap (fun ir =>
         (check ir.2).map (fun m => ("row=" ++ toString ir.1 ++ ": ") ++ m))) := by
  intro l
  induction l with
  | nil => intro v iv es; simp
  | cons a t ih =>
    intro v iv es
    cases hc : check a.2 with
    | none =>
      have hstep : validate_step check (v, iv, es) a = (v + 1, iv, es) := by
        simp [validate_step, hc]
      rw [List.foldl_cons, hstep, ih]
      simp [List.countP_cons, List.filterMap_cons, hc, Prod.mk.injEq]
      omega
    | some m =>
      have hstep : validate_step check (v, iv, es) a =
          (v, iv + 1, es ++ [("row=" ++ toString a.1 ++ ": ") ++ m]) := by
        simp [validate_step, hc]
      rw [List.foldl_cons, hstep, ih]
      simp [List.countP_cons, List.filterMap_cons, hc, Prod.mk.injEq]
      omega

/-- C9: validation processes every row (the counters sum to the row count —
the per-row exception capture means no row aborts the loop), and the error
list is exactly the `row=<index>: <first violation message>` strings of the
invalid rows, truncated to at most 25 entries. -/
theorem validate_rows_error_cap (check : Row → Option String) (records : List Row) :
    (validate_rows check records).errors =
      (records.enum.filterMap (fun ir =>
        (check ir.2).map (fun m => ("row=" ++ toString ir.1 ++ ": ") ++ m))).take 25 ∧
    (validate_rows check records).errors.length ≤ 25 ∧
    (validate_rows check records).valid_rows + (validate_rows check records).invalid_rows =
      records.length := by
  have hf := validate_fold check records.enum 0 0 []
  have hnot : ∀ ir : ℕ × Row, ((check ir.2).isSome) = !((check ir.2).isNone) := by
    intro ir
    cases check ir.2 <;> rfl
  refine ⟨?_, ?_, ?_⟩
  · simp [validate_rows, hf]
  · simp [validate_rows, hf]
  · simp only [validate_rows, hf]
    have hcongr : ∀ ir ∈ records.enum, ((check ir.2).isSome = true) ↔
        ((fun a => decide (¬ ((check a.2).isNone = true))) ir = true) := by
      intro ir _
      cases hc : check ir.2 <;> simp [hc]
    rw [List.countP_congr hcongr]
    have hlen := List.length_eq_countP_add_countP (l := records.enum)
      (p := fun ir => (check ir.2).isNone)
    rw [← List.enum_length (l := records)]
    omega

end Schemas
